import Mathlib

/-!
Verification of the CMS Performance Dashboard's aggregation and comparison
engine (`app.py`), as a shallow embedding in Lean 4.

The dashboard operates on a table of referral records whose columns are
`TRANSFORMED DATE`, `PROCEDURE`, `REFERRING PHYSICIAN` and `Data Set`.
Derived columns `Month` (the date truncated to year-month, rendered as a
string) and `Day of Week` (the weekday name) drive the grouping and the
working-day filter.  We embed records as a structure, the derived columns
as functions of the date, and each pandas pipeline of the source as a
Lean function over lists of records.
-/

namespace CMSDashboard

/-- A calendar date, the parsed value of the `TRANSFORMED DATE` column. -/
structure Date where
  year  : Nat
  month : Nat
  day   : Nat
deriving DecidableEq, Repr

/-- Day count of a civil date on a proleptic Gregorian calendar (Howard
Hinnant's `days_from_civil`, without the epoch shift, adequate for the
positive years the dashboard handles).  pandas derives the weekday of
`TRANSFORMED DATE` from exactly this calendar. -/
def daysFromCivil (d : Date) : Nat :=
  let y := if d.month ≤ 2 then d.year - 1 else d.year
  let era := y / 400
  let yoe := y - era * 400
  let mp := if 2 < d.month then d.month - 3 else d.month + 9
  let doy := (153 * mp + 2) / 5 + (d.day - 1)
  let doe := yoe * 365 + yoe / 4 - yoe / 100 + doy
  era * 146097 + doe

/-- Weekday index of a date: 0 = Sunday, 1 = Monday, …, 6 = Saturday.
`daysFromCivil ⟨1970,1,1⟩ = 719468 ≡ 1 [MOD 7]` and that day was a
Thursday (index 4), hence the offset 3. -/
def weekdayIndex (d : Date) : Nat :=
  (daysFromCivil d + 3) % 7

/-- English weekday name for a weekday index, as produced by pandas
`Series.dt.day_name()`. -/
def dayNameOfIndex : Nat → String
  | 0 => "Sunday"
  | 1 => "Monday"
  | 2 => "Tuesday"
  | 3 => "Wednesday"
  | 4 => "Thursday"
  | 5 => "Friday"
  | _ => "Saturday"

/-- The `Day of Week` derived column: `data['TRANSFORMED DATE'].dt.day_name()`. -/
def dayName (d : Date) : String :=
  dayNameOfIndex (weekdayIndex d)

/-- The `Month` derived column: `dt.to_period('M').astype(str)`, the
zero-padded `"YYYY-MM"` rendering of the date's year and month. -/
def monthStr (d : Date) : String :=
  toString d.year ++ "-" ++ (if d.month < 10 then "0" ++ toString d.month else toString d.month)

/-- One referral record: one row of the dashboard's table, after date
parsing.  Fields mirror the columns `TRANSFORMED DATE`, `PROCEDURE`,
`REFERRING PHYSICIAN`, `Data Set`. -/
structure ReferralRecord where
  date      : Date
  procType  : String
  physician : String
  payer     : String
deriving DecidableEq, Repr

/-- `working_days = ['Monday', 'Tuesday', 'Wednesday', 'Thursday', 'Friday']`. -/
def working_days : List String :=
  ["Monday", "Tuesday", "Wednesday", "Thursday", "Friday"]

/-- `working_data = data[data['Day of Week'].isin(working_days)]`. -/
def workingData (data : List ReferralRecord) : List ReferralRecord :=
  data.filter (fun r => decide (dayName r.date ∈ working_days))

/-- First-occurrence duplicate removal with an accumulator of already-seen
elements: the semantics of pandas `drop_duplicates()` (and of the distinct
index that `groupby(...).size()` produces), which keeps the first copy of
each repeated row. -/
def dedupFirstAux {α : Type} [DecidableEq α] (seen : List α) : List α → List α
  | [] => []
  | a :: l => if a ∈ seen then dedupFirstAux seen l else a :: dedupFirstAux (a :: seen) l

/-- `drop_duplicates()` keeping first occurrences. -/
def dedupFirst {α : Type} [DecidableEq α] (l : List α) : List α :=
  dedupFirstAux [] l

theorem mem_dedupFirstAux {α : Type} [DecidableEq α] (x : α) :
    ∀ (l seen : List α), x ∈ dedupFirstAux seen l ↔ x ∈ l ∧ x ∉ seen := by
  intro l
  induction l with
  | nil => intro seen; simp [dedupFirstAux]
  | cons a l ih =>
    intro seen
    by_cases h : a ∈ seen
    · rw [dedupFirstAux, if_pos h, ih seen]
      simp only [List.mem_cons]
      constructor
      · rintro ⟨hx, hns⟩; exact ⟨Or.inr hx, hns⟩
      · rintro ⟨hx | hx, hns⟩
        · exact absurd (hx ▸ h) hns
        · exact ⟨hx, hns⟩
    · rw [dedupFirstAux, if_neg h]
      simp only [List.mem_cons, ih (a :: seen)]
      constructor
      · rintro (rfl | ⟨hx, hns⟩)
        · exact ⟨Or.inl rfl, h⟩
        · simp only [List.mem_cons, not_or] at hns
          exact ⟨Or.inr hx, hns.2⟩
      · rintro ⟨hx | hx, hns⟩
        · exact Or.inl hx
        · by_cases hxa : x = a
          · exact Or.inl hxa
          · exact Or.inr ⟨hx, by simp [List.mem_cons, hxa, hns]⟩

theorem mem_dedupFirst {α : Type} [DecidableEq α] (x : α) (l : List α) :
    x ∈ dedupFirst l ↔ x ∈ l := by
  simp [dedupFirst, mem_dedupFirstAux]

theorem nodup_dedupFirstAux {α : Type} [DecidableEq α] :
    ∀ (l seen : List α), (dedupFirstAux seen l).Nodup := by
  intro l
  induction l with
  | nil => intro seen; simp [dedupFirstAux]
  | cons a l ih =>
    intro seen
    by_cases h : a ∈ seen
    · rw [dedupFirstAux, if_pos h]; exact ih seen
    · rw [dedupFirstAux, if_neg h, List.nodup_cons]
      refine ⟨?_, ih (a :: seen)⟩
      rw [mem_dedupFirstAux]
      simp

theorem nodup_dedupFirst {α : Type} [DecidableEq α] (l : List α) :
    (dedupFirst l).Nodup :=
  nodup_dedupFirstAux l []

/-! ## Comparator: percentage change -/

/-- `calculate_percentage_change(old_value, new_value)`: `None` when
`old_value == 0`, otherwise `((new_value - old_value) / old_value) * 100`.
Python's numbers are embedded as rationals; the dashboard only ever feeds
this function integer counts, on which rational arithmetic is exact. -/
def calculate_percentage_change (old_value new_value : ℚ) : Option ℚ :=
  if old_value = 0 then none
  else some ((new_value - old_value) / old_value * 100)

/-! ## Comparator: per-physician outer join (`all_doctors_comparison`) -/

/-- Count of rows of a view for one physician: the value the pandas
`view.groupby('REFERRING PHYSICIAN').size()` series holds at that
physician's label (0 when the physician has no rows in the view, which is
exactly the value `.fillna(0)` installs after the outer join). -/
def countFor (view : List ReferralRecord) (p : String) : Nat :=
  (view.filter (fun r => decide (r.physician = p))).length

/-- One output row of the doctor comparison: base-month count, current-month
count and the `Change` column `current - base`. -/
structure DeltaRow where
  entity         : String
  base_count     : Nat
  current_count  : Nat
  absolute_delta : Int
deriving DecidableEq, Repr

/-- The row the comparison table holds for physician `p`. -/
def mkDeltaRow (older newer : List ReferralRecord) (p : String) : DeltaRow :=
  { entity := p
    base_count := countFor older p
    current_count := countFor newer p
    absolute_delta := (countFor newer p : Int) - (countFor older p : Int) }

/-- The `all_doctors_comparison` dataframe: `pd.DataFrame({older: older_counts,
newer: newer_counts}).fillna(0)` followed by `Change = newer - older`.  Its
index is the union of the two groupby indices, i.e. the distinct physicians
appearing in either view; `.fillna(0)` makes an absent side count 0. -/
def all_doctors_comparison (older newer : List ReferralRecord) : List DeltaRow :=
  (dedupFirst (older.map ReferralRecord.physician ++ newer.map ReferralRecord.physician)).map
    (mkDeltaRow older newer)

/-- The month-restricted working-day view used by both comparison tabs:
`compare_data[compare_data['Month'] == m]` where `compare_data` is drawn
from `working_data`. -/
def monthView (data : List ReferralRecord) (m : String) : List ReferralRecord :=
  (workingData data).filter (fun r => decide (monthStr r.date = m))

/-- Working-day procedure count of one physician in one month, the per-month
value of `groupby('REFERRING PHYSICIAN').size()` over the month's view. -/
def monthPhysCount (data : List ReferralRecord) (m p : String) : Nat :=
  countFor (monthView data m) p

/-! ## Record Store: merge, de-duplication, sort -/

/-- `data.sort_values('TRANSFORMED DATE')`: re-sort rows by date ascending
(a permutation of the rows; the engine never depends on the tie order). -/
def sortByDate (l : List ReferralRecord) : List ReferralRecord :=
  l.insertionSort (fun a b => daysFromCivil a.date ≤ daysFromCivil b.date)

/-- The upload-merge block: `pd.concat([A, B])`, `drop_duplicates()`,
`duplicates_removed = initial_len - len(data)`, `sort_values` by date.
Returns the merged store together with the reported `duplicates_removed`. -/
def mergeStores (A B : List ReferralRecord) : List ReferralRecord × Nat :=
  let concatenated := A ++ B
  let deduped := dedupFirst concatenated
  (sortByDate deduped, concatenated.length - deduped.length)

/-! ## Generic helper lemmas -/

theorem filter_map_comm {α β : Type} (f : α → β) (q : β → Bool) (l : List α) :
    (l.map f).filter q = (l.filter (fun a => q (f a))).map f := by
  induction l with
  | nil => rfl
  | cons a l ih =>
    by_cases h : q (f a) <;> simp [h, ih]

theorem filter_eq_nil_of_not_mem {α : Type} [DecidableEq α] {l : List α} {x : α}
    (h : x ∉ l) : l.filter (fun a => decide (a = x)) = [] := by
  induction l with
  | nil => rfl
  | cons a l ih =>
    simp only [List.mem_cons, not_or] at h
    have hax : ¬a = x := fun hax => h.1 hax.symm
    simp [List.filter_cons, hax, ih h.2]

theorem length_filter_nodup {α : Type} [DecidableEq α] (l : List α) (x : α)
    (hl : l.Nodup) :
    (l.filter (fun a => decide (a = x))).length = if x ∈ l then 1 else 0 := by
  induction l with
  | nil => simp
  | cons a l ih =>
    rw [List.nodup_cons] at hl
    by_cases h : a = x
    · subst h
      rw [List.filter_cons]
      simp [filter_eq_nil_of_not_mem hl.1]
    · rw [List.filter_cons]
      simp only [decide_eq_true_eq, h, if_false]
      rw [ih hl.2]
      by_cases hx : x ∈ l
      · rw [if_pos hx, if_pos (List.mem_cons_of_mem a hx)]
      · have hxa : ¬x = a := fun hxa => h hxa.symm
        rw [if_neg hx, if_neg (by simp [List.mem_cons, hx, hxa])]

/-! ## Concrete sample data (the spec's concrete scenarios) -/

/-- 2024-01-05 (a Friday), MRI, Dr. A, InsX. -/
def rec1 : ReferralRecord := ⟨⟨2024, 1, 5⟩, "MRI", "Dr. A", "InsX"⟩

/-- 2024-01-06 (a Saturday), MRI, Dr. A, InsY. -/
def rec2 : ReferralRecord := ⟨⟨2024, 1, 6⟩, "MRI", "Dr. A", "InsY"⟩

/-- 2024-02-01 (a Thursday), MRI, Dr. A, InsX. -/
def rec3 : ReferralRecord := ⟨⟨2024, 2, 1⟩, "MRI", "Dr. A", "InsX"⟩

/-- The three-record input of the spec's concrete scenario. -/
def sampleRecords : List ReferralRecord := [rec1, rec2, rec3]

/-! ## Claim theorems -/

/-- Claim C1: for every pair of period views (base first, current second) the
doctor comparison holds exactly one row per physician appearing in at least
one view (count 1 in the table, 0 for anyone else), the absent side's count
is filled as 0 (the `countFor` of a view a physician does not appear in is
0, which is what the row stores), and `absolute_delta` is exactly
`current_count - base_count`, the first argument (first-selected month)
being the base of the subtraction. -/
theorem all_doctors_comparison_spec (older newer : List ReferralRecord) :
    (∀ p : String,
        ((all_doctors_comparison older newer).filter
            (fun row => decide (row.entity = p))).length
          = if p ∈ older.map ReferralRecord.physician ∨ p ∈ newer.map ReferralRecord.physician
            then 1 else 0)
    ∧ ∀ row ∈ all_doctors_comparison older newer,
        row.base_count = countFor older row.entity ∧
        row.current_count = countFor newer row.entity ∧
        row.absolute_delta = (row.current_count : Int) - (row.base_count : Int) := by
  constructor
  · intro p
    rw [all_doctors_comparison, filter_map_comm, List.length_map]
    have hent : (fun a => decide ((mkDeltaRow older newer a).entity = p))
        = (fun a => decide (a = p)) := rfl
    rw [hent, length_filter_nodup _ _ (nodup_dedupFirst _)]
    exact if_congr (by rw [mem_dedupFirst, List.mem_append]) rfl rfl
  · intro row hrow
    rw [all_doctors_comparison] at hrow
    obtain ⟨k, hk, rfl⟩ := List.mem_map.mp hrow
    exact ⟨rfl, rfl, rfl⟩

/-- Witness for C1: the single row of the comparison of `[rec1]` (base) with
`[rec3]` (current) satisfies the per-row contract. -/
theorem all_doctors_comparison_spec_witness :
    (mkDeltaRow [rec1] [rec3] "Dr. A").base_count = countFor [rec1] "Dr. A" ∧
    (mkDeltaRow [rec1] [rec3] "Dr. A").current_count = countFor [rec3] "Dr. A" ∧
    (mkDeltaRow [rec1] [rec3] "Dr. A").absolute_delta
      = ((mkDeltaRow [rec1] [rec3] "Dr. A").current_count : Int)
        - ((mkDeltaRow [rec1] [rec3] "Dr. A").base_count : Int) :=
  (all_doctors_comparison_spec [rec1] [rec3]).2 _ (by decide)

/-- Claim C2: `calculate_percentage_change` returns `None` exactly when the
base is 0; otherwise `(current - base) / base * 100`; in particular the base-0
case is `None` for every current value, and equal nonzero values give 0. -/
theorem calculate_percentage_change_spec :
    (∀ base current : ℚ, calculate_percentage_change base current = none ↔ base = 0)
    ∧ (∀ X : ℚ, calculate_percentage_change 0 X = none)
    ∧ (∀ X : ℚ, X ≠ 0 → calculate_percentage_change X X = some 0)
    ∧ (∀ base current : ℚ, base ≠ 0 →
        calculate_percentage_change base current = some ((current - base) / base * 100)) := by
  refine ⟨?_, ?_, ?_, ?_⟩
  · intro base current
    by_cases h : base = 0 <;> simp [calculate_percentage_change, h]
  · intro X
    simp [calculate_percentage_change]
  · intro X hX
    simp [calculate_percentage_change, hX]
  · intro base current h
    simp [calculate_percentage_change, h]

/-- Witness for C2 at nonzero bases: equal counts 3 give 0%, and 2 → 3 gives 50%. -/
theorem calculate_percentage_change_spec_witness :
    calculate_percentage_change 3 3 = some 0 ∧ calculate_percentage_change 2 3 = some 50 := by
  constructor
  · exact calculate_percentage_change_spec.2.2.1 3 (by norm_num)
  · have h := calculate_percentage_change_spec.2.2.2 2 3 (by norm_num)
    rw [h]
    norm_num

/-- Claim C4: merging is commutative on content after de-duplication — the
merged stores of `A, B` and of `B, A` hold the same row set — and the
reported `duplicates_removed` equals `|A| + |B|` minus the merged row count. -/
theorem mergeStores_comm_content (A B : List ReferralRecord) :
    ((mergeStores A B).1).toFinset = ((mergeStores B A).1).toFinset
    ∧ (mergeStores A B).2 = A.length + B.length - (mergeStores A B).1.length := by
  constructor
  · ext r
    simp only [List.mem_toFinset, mergeStores, sortByDate, List.mem_insertionSort,
      mem_dedupFirst, List.mem_append]
    tauto
  · simp [mergeStores, sortByDate, List.length_insertionSort, List.length_append]

/-- Claim C3 counterexample: in the three-record scenario the record dated
2024-01-06 falls on a Saturday, so the working-day filter (which every
monthly aggregate and comparison of the source runs behind) drops it.  The
January 2024 working-day count for Dr. A is therefore 1 — not 2 as the
claim computes — and the comparison row is (base 1, current 1, delta 0),
not (2, 1, -1). -/
theorem month_scenario_counterexample :
    monthPhysCount sampleRecords "2024-01" "Dr. A" = 1 ∧
    ¬ monthPhysCount sampleRecords "2024-01" "Dr. A" = 2 ∧
    ¬ all_doctors_comparison (monthView sampleRecords "2024-01") (monthView sampleRecords "2024-02")
        = [{ entity := "Dr. A", base_count := 2, current_count := 1, absolute_delta := -1 }] := by
  refine ⟨by decide, by decide, by decide⟩

/-- Claim C3 as amended: on the three-record input, after the working-day
filter the monthly counts for Dr. A are 2024-01 ↦ 1 and 2024-02 ↦ 1, and the
period comparison of 2024-01 (base) against 2024-02 (current) yields exactly
one row (Dr. A, base 1, current 1, delta 0), whose percentage change is 0. -/
theorem month_scenario_amended :
    monthPhysCount sampleRecords "2024-01" "Dr. A" = 1 ∧
    monthPhysCount sampleRecords "2024-02" "Dr. A" = 1 ∧
    all_doctors_comparison (monthView sampleRecords "2024-01") (monthView sampleRecords "2024-02")
      = [{ entity := "Dr. A", base_count := 1, current_count := 1, absolute_delta := 0 }] ∧
    calculate_percentage_change 1 1 = some 0 := by
  refine ⟨by decide, by decide, by decide, ?_⟩
  norm_num [calculate_percentage_change]

/-- Claim C6: `working_data` holds exactly the records of the store whose
date's weekday name is one of Monday–Friday; that membership is equivalent
to the weekday index being neither Sunday (0) nor Saturday (6); and a record
dated on a Saturday or a Sunday is excluded.  All working-day-scoped
aggregates of the source (`month_summary`, the month views, the comparisons)
are built on `working_data` by construction. -/
theorem workingData_spec (data : List ReferralRecord) (r : ReferralRecord) :
    (r ∈ workingData data ↔ r ∈ data ∧ dayName r.date ∈ working_days)
    ∧ (dayName r.date ∈ working_days ↔ weekdayIndex r.date ≠ 0 ∧ weekdayIndex r.date ≠ 6)
    ∧ (dayName r.date = "Saturday" ∨ dayName r.date = "Sunday" → r ∉ workingData data) := by
  have hmem : r ∈ workingData data ↔ r ∈ data ∧ dayName r.date ∈ working_days := by
    simp [workingData, List.mem_filter]
  have hday : (dayName r.date ∈ working_days ↔ weekdayIndex r.date ≠ 0 ∧ weekdayIndex r.date ≠ 6)
      ∧ ((dayName r.date = "Saturday" ∨ dayName r.date = "Sunday") →
          dayName r.date ∉ working_days) := by
    have h7 : weekdayIndex r.date < 7 := Nat.mod_lt _ (by decide)
    simp only [dayName]
    revert h7
    generalize weekdayIndex r.date = k
    intro h7
    interval_cases k <;> exact ⟨by decide, by decide⟩
  refine ⟨hmem, hday.1, ?_⟩
  intro h hcontra
  exact hday.2 h (hmem.mp hcontra).2

/-- Witness for C6: the Saturday record of the sample scenario is excluded
from the working-day view. -/
theorem workingData_spec_witness : rec2 ∉ workingData sampleRecords :=
  (workingData_spec sampleRecords rec2).2.2 (Or.inl (by decide))

/-! ## Record Store: ingestion validation -/

/-- The four typed columns `validate_data` coerces (`required_types`). -/
def requiredTypeCols : List String :=
  ["TRANSFORMED DATE", "PROCEDURE", "REFERRING PHYSICIAN", "Data Set"]

/-- An uploaded table before validation: its column names, whether each
column's values coerce to the required dtype, and its parsed rows. -/
structure UploadTable where
  columns : List String
  coerceOk : String → Bool
  rows : List ReferralRecord

/-- One entry of `validation_errors`. -/
inductive ValidationIssue where
  | missingColumns (cols : List String)
  | typeConversion (col : String)
deriving DecidableEq, Repr

/-- `set(base_data.columns) - set(new_data.columns)`: the base columns the
upload lacks. -/
def missingColumnsOf (baseCols : List String) (nd : UploadTable) : List String :=
  baseCols.filter (fun c => decide (c ∉ nd.columns))

/-- `validate_data`'s accumulated error list: one entry naming all missing
columns (when any), then one entry per present required column whose values
fail dtype coercion — the loop appends an error per column instead of
stopping at the first. -/
def validationErrors (baseCols : List String) (nd : UploadTable) : List ValidationIssue :=
  (if missingColumnsOf baseCols nd = [] then []
   else [ValidationIssue.missingColumns (missingColumnsOf baseCols nd)])
  ++ (requiredTypeCols.filter
        (fun c => decide (c ∈ nd.columns) && !(nd.coerceOk c))).map ValidationIssue.typeConversion

/-- `validate_data` returns `True` exactly when no error was accumulated. -/
def validate_data (baseCols : List String) (nd : UploadTable) : Bool :=
  decide (validationErrors baseCols nd = [])

/-- The upload branch: merge only when validation passed; otherwise the
whole ingestion stops (`st.stop()`), producing no merged store. -/
def ingestUpload (baseCols : List String) (base : List ReferralRecord) (nd : UploadTable) :
    Option (List ReferralRecord × Nat) :=
  if validate_data baseCols nd then some (mergeStores base nd.rows) else none

/-- Claim C5: when validation fails the whole ingestion call fails (no merged
store is produced), and the error report contains every violation — the
missing-columns entry naming all absent columns, and a coercion entry for
every present required column whose values fail coercion, not only the
first. -/
theorem validate_data_reports_all (baseCols : List String) (base : List ReferralRecord)
    (nd : UploadTable) :
    (validate_data baseCols nd = false ↔ validationErrors baseCols nd ≠ [])
    ∧ (missingColumnsOf baseCols nd ≠ [] →
        ValidationIssue.missingColumns (missingColumnsOf baseCols nd)
          ∈ validationErrors baseCols nd)
    ∧ (∀ c ∈ requiredTypeCols, c ∈ nd.columns → nd.coerceOk c = false →
        ValidationIssue.typeConversion c ∈ validationErrors baseCols nd)
    ∧ (validationErrors baseCols nd ≠ [] → ingestUpload baseCols base nd = none) := by
  refine ⟨?_, ?_, ?_, ?_⟩
  · simp [validate_data]
  · intro h
    simp [validationErrors, h]
  · intro c hc hcol hfail
    apply List.mem_append_right
    apply List.mem_map.mpr
    refine ⟨c, ?_, rfl⟩
    apply List.mem_filter.mpr
    exact ⟨hc, by simp [hcol, hfail]⟩
  · intro h
    simp [ingestUpload, validate_data, h]

/-- The base table's columns are exactly the required ones in the witness. -/
def sampleBaseCols : List String := requiredTypeCols

/-- A witness upload: two required columns absent, and the date column
present but failing coercion. -/
def sampleUpload : UploadTable :=
  { columns := ["TRANSFORMED DATE", "REFERRING PHYSICIAN"]
    coerceOk := fun c => decide (c ≠ "TRANSFORMED DATE")
    rows := [] }

/-- Witness for C5: on the sample upload, both absent columns are reported
in one entry, the failing date column is reported as well, and ingestion
produces no store. -/
theorem validate_data_reports_all_witness :
    ValidationIssue.missingColumns ["PROCEDURE", "Data Set"]
      ∈ validationErrors sampleBaseCols sampleUpload
    ∧ ValidationIssue.typeConversion "TRANSFORMED DATE"
      ∈ validationErrors sampleBaseCols sampleUpload
    ∧ ingestUpload sampleBaseCols [] sampleUpload = none := by
  have h := validate_data_reports_all sampleBaseCols [] sampleUpload
  refine ⟨?_, ?_, ?_⟩
  · have hm : missingColumnsOf sampleBaseCols sampleUpload = ["PROCEDURE", "Data Set"] := by
      decide
    have hrep := h.2.1 (by rw [hm]; decide)
    rw [hm] at hrep
    exact hrep
  · exact h.2.2.1 "TRANSFORMED DATE" (by decide) (by decide) (by decide)
  · exact h.2.2.2 (by decide)

/-! ## Cohort Classifier -/

/-- One row of the Top 200 Doctors roster: the `Referring Physician` column
and the responsible-person column's value. -/
structure RosterRow where
  physician   : String
  responsible : String
deriving DecidableEq, Repr

/-- `top_200[top_200[responsible_column] == label]['Referring Physician'].tolist()`. -/
def rosterDocsFor (roster : List RosterRow) (label : String) : List String :=
  (roster.filter (fun row => decide (row.responsible = label))).map RosterRow.physician

/-- `alex_docs`: roster physicians whose responsible value is `ALEX`. -/
def alex_docs (roster : List RosterRow) : List String := rosterDocsFor roster "ALEX"

/-- `luis_docs`: roster physicians whose responsible value is `LUIS`. -/
def luis_docs (roster : List RosterRow) : List String := rosterDocsFor roster "LUIS"

/-- `gerardo_docs`: roster physicians whose responsible value is `GERARDO`. -/
def gerardo_docs (roster : List RosterRow) : List String := rosterDocsFor roster "GERARDO"

/-- The `categories` dictionary of tab 4, in its insertion order. -/
def categories (roster : List RosterRow) : List (String × List String) :=
  [("Alex", alex_docs roster), ("Luis", luis_docs roster), ("Gerardo", gerardo_docs roster)]

/-- The roster of the spec's classification scenario. -/
def exampleRoster : List RosterRow := [⟨"Dr. A", "ALEX"⟩, ⟨"Dr. B", "LUIS"⟩]

/-- Claim C7 counterexample: on the roster {Dr. A → ALEX, Dr. B → LUIS} the
code's LUIS category is {Dr. B}, not the empty set the claim's scenario
asserts — the category sets are computed from the roster alone and are
never intersected with a physician list. -/
theorem categories_example_counterexample :
    luis_docs exampleRoster = ["Dr. B"] ∧ ¬ luis_docs exampleRoster = [] := by
  refine ⟨by decide, by decide⟩

/-- Claim C7 as amended: classification is determined by the roster alone —
a physician belongs to a category's set exactly when some roster row lists
them under that category's label, so a physician absent from the roster
appears in no category; the physician list plays no role, hence the example
roster yields {ALEX: {Dr. A}, LUIS: {Dr. B}, GERARDO: {}}. -/
theorem categories_roster_only (roster : List RosterRow) (p : String) :
    (p ∈ alex_docs roster ↔ ∃ row ∈ roster, row.physician = p ∧ row.responsible = "ALEX")
    ∧ (p ∈ luis_docs roster ↔ ∃ row ∈ roster, row.physician = p ∧ row.responsible = "LUIS")
    ∧ (p ∈ gerardo_docs roster ↔ ∃ row ∈ roster, row.physician = p ∧ row.responsible = "GERARDO")
    ∧ ((∀ row ∈ roster, row.physician ≠ p) → ∀ cat ∈ categories roster, p ∉ cat.2)
    ∧ (alex_docs exampleRoster = ["Dr. A"] ∧ luis_docs exampleRoster = ["Dr. B"]
        ∧ gerardo_docs exampleRoster = []) := by
  have hmem : ∀ label : String,
      p ∈ rosterDocsFor roster label
        ↔ ∃ row ∈ roster, row.physician = p ∧ row.responsible = label := by
    intro label
    simp only [rosterDocsFor, List.mem_map, List.mem_filter, decide_eq_true_eq]
    constructor
    · rintro ⟨row, ⟨hrow, hresp⟩, hphys⟩
      exact ⟨row, hrow, hphys, hresp⟩
    · rintro ⟨row, hrow, hphys, hresp⟩
      exact ⟨row, ⟨hrow, hresp⟩, hphys⟩
  refine ⟨hmem _, hmem _, hmem _, ?_, by decide, by decide, by decide⟩
  intro habs cat hcat hp
  have hcases : cat = ("Alex", alex_docs roster) ∨ cat = ("Luis", luis_docs roster)
      ∨ cat = ("Gerardo", gerardo_docs roster) := by
    simpa [categories] using hcat
  rcases hcases with rfl | rfl | rfl
  · obtain ⟨row, hrow, hphys, -⟩ := (hmem "ALEX").mp hp
    exact habs row hrow hphys
  · obtain ⟨row, hrow, hphys, -⟩ := (hmem "LUIS").mp hp
    exact habs row hrow hphys
  · obtain ⟨row, hrow, hphys, -⟩ := (hmem "GERARDO").mp hp
    exact habs row hrow hphys

/-- Witness for C7: Dr. C, who is absent from the example roster, appears in
none of the three category sets. -/
theorem categories_roster_only_witness :
    "Dr. C" ∉ alex_docs exampleRoster ∧ "Dr. C" ∉ luis_docs exampleRoster
    ∧ "Dr. C" ∉ gerardo_docs exampleRoster := by
  have h := (categories_roster_only exampleRoster "Dr. C").2.2.2.1 (by decide)
  refine ⟨?_, ?_, ?_⟩
  · exact h ("Alex", alex_docs exampleRoster) (by simp [categories])
  · exact h ("Luis", luis_docs exampleRoster) (by simp [categories])
  · exact h ("Gerardo", gerardo_docs exampleRoster) (by simp [categories])

/-! ## Category performance metrics (tab 4) -/

/-- `working_data[(working_data['Month'] == m) &
(working_data['REFERRING PHYSICIAN'].isin(doctors))]`. -/
def monthCohortData (data : List ReferralRecord) (m : String) (doctors : List String) :
    List ReferralRecord :=
  (workingData data).filter
    (fun r => decide (monthStr r.date = m) && decide (r.physician ∈ doctors))

/-- One entry of `performance_data`. -/
structure PerfEntry where
  category               : String
  month                  : String
  totalProcedures        : Nat
  uniqueDoctorsActive    : Nat
  avgProceduresPerDoctor : ℚ
  uniqueInsurances       : Nat
deriving DecidableEq, Repr

/-- The dictionary appended per category and month: total working-day
procedures of the cohort, distinct active physicians, the average
`len(month_data) / len(doctors) if len(doctors) > 0 else 0`, and distinct
insurances. -/
def perfEntry (data : List ReferralRecord) (category : String) (doctors : List String)
    (m : String) : PerfEntry :=
  let md := monthCohortData data m doctors
  { category := category
    month := m
    totalProcedures := md.length
    uniqueDoctorsActive := (dedupFirst (md.map ReferralRecord.physician)).length
    avgProceduresPerDoctor :=
      if 0 < doctors.length then (md.length : ℚ) / (doctors.length : ℚ) else 0
    uniqueInsurances := (dedupFirst (md.map ReferralRecord.payer)).length }

/-- `performance_data`: the loop over `categories.items()` (Alex, Luis,
Gerardo, in insertion order) and, inside it, over the selected months. -/
def performance_data (data : List ReferralRecord) (roster : List RosterRow)
    (months : List String) : List PerfEntry :=
  months.map (perfEntry data "Alex" (alex_docs roster))
    ++ months.map (perfEntry data "Luis" (luis_docs roster))
    ++ months.map (perfEntry data "Gerardo" (gerardo_docs roster))

/-- Claim C8: every `performance_data` entry takes its average from the
roster-declared cohort of its category — the total working-day procedure
count of the cohort in the entry's month divided by the number of
physicians the roster assigns to the category (not the number active in
the period, which the entry reports separately). -/
theorem perf_avg_uses_roster_size (data : List ReferralRecord) (roster : List RosterRow)
    (months : List String) (e : PerfEntry) (he : e ∈ performance_data data roster months) :
    ∃ doctors : List String, (e.category, doctors) ∈ categories roster ∧
      e.totalProcedures = (monthCohortData data e.month doctors).length ∧
      (0 < doctors.length →
        e.avgProceduresPerDoctor = (e.totalProcedures : ℚ) / (doctors.length : ℚ)) := by
  rw [performance_data, List.mem_append, List.mem_append] at he
  rcases he with (he | he) | he <;> obtain ⟨m, hm, rfl⟩ := List.mem_map.mp he
  · refine ⟨alex_docs roster, by simp [perfEntry, categories], rfl, ?_⟩
    intro hpos
    simp [perfEntry, hpos]
  · refine ⟨luis_docs roster, by simp [perfEntry, categories], rfl, ?_⟩
    intro hpos
    simp [perfEntry, hpos]
  · refine ⟨gerardo_docs roster, by simp [perfEntry, categories], rfl, ?_⟩
    intro hpos
    simp [perfEntry, hpos]

/-- Witness for C8: the Alex entry for January 2024 over the sample data and
example roster satisfies the contract. -/
theorem perf_avg_uses_roster_size_witness :
    ∃ doctors : List String,
      ((perfEntry sampleRecords "Alex" (alex_docs exampleRoster) "2024-01").category, doctors)
        ∈ categories exampleRoster ∧
      (perfEntry sampleRecords "Alex" (alex_docs exampleRoster) "2024-01").totalProcedures
        = (monthCohortData sampleRecords
            (perfEntry sampleRecords "Alex" (alex_docs exampleRoster) "2024-01").month
            doctors).length ∧
      (0 < doctors.length →
        (perfEntry sampleRecords "Alex" (alex_docs exampleRoster) "2024-01").avgProceduresPerDoctor
          = ((perfEntry sampleRecords "Alex" (alex_docs exampleRoster) "2024-01").totalProcedures : ℚ)
            / (doctors.length : ℚ)) := by
  apply perf_avg_uses_roster_size sampleRecords exampleRoster ["2024-01"]
  rw [performance_data]
  simp

/-- Claim C10: the average-procedures-per-doctor computation is total — an
empty roster cohort yields 0 without dividing, and the division branch is
taken exactly under the guard that the cohort size is positive. -/
theorem perf_avg_total (data : List ReferralRecord) (category m : String)
    (doctors : List String) :
    (doctors.length = 0 → (perfEntry data category doctors m).avgProceduresPerDoctor = 0)
    ∧ (0 < doctors.length →
        (perfEntry data category doctors m).avgProceduresPerDoctor
          = ((monthCohortData data m doctors).length : ℚ) / (doctors.length : ℚ)) := by
  constructor
  · intro h
    simp [perfEntry, h]
  · intro h
    simp [perfEntry, h]

/-- Witness for C10: the empty Gerardo cohort of the example roster yields
average 0, and a one-doctor cohort takes the division branch. -/
theorem perf_avg_total_witness :
    (perfEntry sampleRecords "Gerardo" (gerardo_docs exampleRoster) "2024-01").avgProceduresPerDoctor
      = 0
    ∧ (perfEntry sampleRecords "Alex" (alex_docs exampleRoster) "2024-01").avgProceduresPerDoctor
      = ((monthCohortData sampleRecords "2024-01" (alex_docs exampleRoster)).length : ℚ)
        / ((alex_docs exampleRoster).length : ℚ) := by
  constructor
  · exact (perf_avg_total sampleRecords "Gerardo" "2024-01" (gerardo_docs exampleRoster)).1
      (by decide)
  · exact (perf_avg_total sampleRecords "Alex" "2024-01" (alex_docs exampleRoster)).2
      (by decide)

/-! ## Roster loader: responsible-column aliases -/

/-- `possible_names = ['RESPONSABLE', 'Responsable', 'RESPONSIBLE', 'Responsible']`. -/
def possible_names : List String :=
  ["RESPONSABLE", "Responsable", "RESPONSIBLE", "Responsible"]

/-- The alias-sniffing loop of `load_top_200_docs`: the first name of
`possible_names` present among the file's columns, `none` when no alias
matches. -/
def findResponsibleColumn (cols : List String) : Option String :=
  possible_names.find? (fun n => decide (n ∈ cols))

/-- `load_top_200_docs` reduced to its column-recognition outcome: the
responsible column it records, or `none` for the error return (in which
case tab 4 never classifies anything). -/
def load_top_200_docs (cols : List String) : Option String :=
  findResponsibleColumn cols

/-- Claim C9: the loader recognizes exactly the four enumerated aliases —
it errors out precisely when none of them is a column — and on success it
returns the first alias, in the enumeration's order, that is present. -/
theorem load_top_200_docs_aliases (cols : List String) :
    (load_top_200_docs cols = none ↔ ∀ n ∈ possible_names, n ∉ cols)
    ∧ (∀ c : String, load_top_200_docs cols = some c →
        ((c = "RESPONSABLE" ∧ "RESPONSABLE" ∈ cols)
          ∨ (c = "Responsable" ∧ "Responsable" ∈ cols ∧ "RESPONSABLE" ∉ cols)
          ∨ (c = "RESPONSIBLE" ∧ "RESPONSIBLE" ∈ cols ∧ "RESPONSABLE" ∉ cols
              ∧ "Responsable" ∉ cols)
          ∨ (c = "Responsible" ∧ "Responsible" ∈ cols ∧ "RESPONSABLE" ∉ cols
              ∧ "Responsable" ∉ cols ∧ "RESPONSIBLE" ∉ cols))) := by
  constructor
  · by_cases h1 : "RESPONSABLE" ∈ cols <;> by_cases h2 : "Responsable" ∈ cols <;>
      by_cases h3 : "RESPONSIBLE" ∈ cols <;> by_cases h4 : "Responsible" ∈ cols <;>
      simp [load_top_200_docs, findResponsibleColumn, possible_names, List.find?,
        h1, h2, h3, h4]
  · intro c hc
    by_cases h1 : "RESPONSABLE" ∈ cols
    · have hce : c = "RESPONSABLE" := by
        simp [load_top_200_docs, findResponsibleColumn, possible_names, List.find?, h1] at hc
        exact hc.symm
      subst hce
      exact Or.inl ⟨rfl, h1⟩
    · by_cases h2 : "Responsable" ∈ cols
      · have hce : c = "Responsable" := by
          simp [load_top_200_docs, findResponsibleColumn, possible_names, List.find?,
            h1, h2] at hc
          exact hc.symm
        subst hce
        exact Or.inr (Or.inl ⟨rfl, h2, h1⟩)
      · by_cases h3 : "RESPONSIBLE" ∈ cols
        · have hce : c = "RESPONSIBLE" := by
            simp [load_top_200_docs, findResponsibleColumn, possible_names, List.find?,
              h1, h2, h3] at hc
            exact hc.symm
          subst hce
          exact Or.inr (Or.inr (Or.inl ⟨rfl, h3, h1, h2⟩))
        · by_cases h4 : "Responsible" ∈ cols
          · have hce : c = "Responsible" := by
              simp [load_top_200_docs, findResponsibleColumn, possible_names, List.find?,
                h1, h2, h3, h4] at hc
              exact hc.symm
            subst hce
            exact Or.inr (Or.inr (Or.inr ⟨rfl, h4, h1, h2, h3⟩))
          · simp [load_top_200_docs, findResponsibleColumn, possible_names, List.find?,
              h1, h2, h3, h4] at hc

/-- Witness for C9: when the misspelled-first alias is absent but two later
aliases are present, the loader picks `Responsable`, the earliest present
alias; and a file with no alias at all errors out. -/
theorem load_top_200_docs_aliases_witness :
    ((("Responsable" : String) = "RESPONSABLE" ∧ "RESPONSABLE" ∈ ["Foo", "RESPONSIBLE", "Responsable"])
      ∨ (("Responsable" : String) = "Responsable" ∧ "Responsable" ∈ ["Foo", "RESPONSIBLE", "Responsable"]
          ∧ "RESPONSABLE" ∉ ["Foo", "RESPONSIBLE", "Responsable"])
      ∨ (("Responsable" : String) = "RESPONSIBLE" ∧ "RESPONSIBLE" ∈ ["Foo", "RESPONSIBLE", "Responsable"]
          ∧ "RESPONSABLE" ∉ ["Foo", "RESPONSIBLE", "Responsable"]
          ∧ "Responsable" ∉ ["Foo", "RESPONSIBLE", "Responsable"])
      ∨ (("Responsable" : String) = "Responsible" ∧ "Responsible" ∈ ["Foo", "RESPONSIBLE", "Responsable"]
          ∧ "RESPONSABLE" ∉ ["Foo", "RESPONSIBLE", "Responsable"]
          ∧ "Responsable" ∉ ["Foo", "RESPONSIBLE", "Responsable"]
          ∧ "RESPONSIBLE" ∉ ["Foo", "RESPONSIBLE", "Responsable"]))
    ∧ load_top_200_docs ["Foo"] = none := by
  constructor
  · exact (load_top_200_docs_aliases ["Foo", "RESPONSIBLE", "Responsable"]).2
      "Responsable" (by decide)
  · exact (load_top_200_docs_aliases ["Foo"]).1.mpr (by decide)

end CMSDashboard

